import Mathlib

/-!
Shallow embedding of the GeoIP chunked-database loader and IP resolution
cache of the nezha-dash repository
(src/lib/geo/chunked-loader.ts, src/lib/geo/preload.ts and
src/lib/geo/ip-to-country.ts).

Modelling conventions:
* byte buffers are `List Nat`; files are optional byte lists;
* the module-level mutable variables (`cachedReader`, `cachedBuffer`,
  `geoIPReader`, `databaseType`, `ipCountryCache`, `isPreloaded`) become
  explicit state records threaded through the functions;
* a thrown JavaScript exception becomes `Except.error` carrying the
  message; a `try`/`catch` block becomes a `match` on the callee's result;
* `zlib.gunzipSync` and the MaxMind `Reader.get` lookup are opaque
  third-party functions and are taken as parameters (`gunzip`,
  `readerGet`); `Buffer.allocUnsafe` returns a buffer of the requested
  length with arbitrary contents and is taken as a parameter `alloc`,
  constrained only by its length;
* none of the functions in these modules contains an `await` between a
  check of the shared state and its update that suspends to other work:
  `loadGeoIPFromChunks` uses only synchronous file reads and
  `gunzipSync`, so under Node's run-to-completion scheduling each call
  executes atomically.  A call is therefore modelled as one atomic state
  transition, and "concurrent" callers as a sequence of such transitions;
* the embedded functions additionally carry instrumentation counters
  (`decompressCount` for the decompress step, `queries` for provider
  lookups), mirroring the counters the specification proposes for
  testing; the counters never influence control flow.
-/

namespace Nezha

/-- One entry of the `chunks` array of `metadata.json`
(chunked-loader.ts, lines 15-20). -/
structure ChunkEntry where
  index : Nat
  originalSize : Nat
  compressedSize : Nat
  filename : String
deriving DecidableEq

/-- The manifest `metadata.json` (chunked-loader.ts, lines 6-22); the
purely informational string fields (`originalFile`, `totalSizeMB`,
`compressionRatio`, `createdAt`, ...) are omitted as they are never
consulted by the loader. -/
structure ChunkMetadata where
  totalSize : Nat
  chunkSize : Nat
  numChunks : Nat
  chunks : List ChunkEntry
deriving DecidableEq

/-- The chunks directory on disk: the optional manifest (`metadata.json`,
absent when the file does not exist) and the chunk files addressed by
filename. -/
structure ChunksDir where
  metadata : Option ChunkMetadata
  files : String → Option (List Nat)

/-- The opaque MaxMind reader: `new Reader(buffer)` wraps the database
bytes (the parsing done inside the `maxmind` package is not modelled). -/
structure Reader where
  buffer : List Nat
deriving DecidableEq

/-- Module state of chunked-loader.ts (lines 24-25): the cached reader
and cached buffer, plus the decompress instrumentation counter. -/
structure LoaderState where
  cachedReader : Option Reader
  cachedBuffer : Option (List Nat)
  decompressCount : Nat
deriving DecidableEq

/-- `decompressedChunk.copy(fullBuffer, offset)` for Node buffers
(chunked-loader.ts, line 73): copies
`min src.length (target.length - tStart)` bytes of `src` into `target`
starting at position `tStart`, leaving the rest of `target` unchanged. -/
def bufCopy (src target : List Nat) (tStart : Nat) : List Nat :=
  target.take tStart ++ src.take (target.length - tStart) ++
    target.drop (tStart + src.length)

/-- The chunk loop of `loadGeoIPFromChunks` (chunked-loader.ts, lines
51-75): `for (let i = 0; i < metadata.numChunks; i++)` runs exactly
`numChunks` iterations; the first argument is the number of remaining
iterations and `i` the current loop index, so the loop is entered with
`remaining = metadata.numChunks` and `i = 0`.  Each iteration reads chunk
entry `i` (a read past the end of the `chunks` array is the JavaScript
`undefined`, and the subsequent field access throws), reads and
decompresses the chunk file, verifies the decompressed size against the
manifest and copies the bytes into the buffer at the running offset.
Returns the filled buffer or the thrown error message, together with the
updated decompress counter. -/
def loadLoop (gunzip : List Nat → List Nat) (dir : ChunksDir)
    (md : ChunkMetadata) : Nat → Nat → List Nat → Nat → Nat →
    Except String (List Nat) × Nat
  | 0, _i, buf, _offset, cnt => (.ok buf, cnt)
  | remaining + 1, i, buf, offset, cnt =>
    match md.chunks[i]? with
    | none => (.error "TypeError: chunk entry is undefined", cnt)
    | some chunkInfo =>
      match dir.files chunkInfo.filename with
      | none => (.error ("Chunk file not found: " ++ chunkInfo.filename), cnt)
      | some compressedChunk =>
        let decompressedChunk := gunzip compressedChunk
        if decompressedChunk.length ≠ chunkInfo.originalSize then
          (.error ("Chunk " ++ toString i ++ " size mismatch: expected " ++
              toString chunkInfo.originalSize ++ ", got " ++
              toString decompressedChunk.length), cnt + 1)
        else
          loadLoop gunzip dir md remaining (i + 1)
            (bufCopy decompressedChunk buf offset)
            (offset + decompressedChunk.length) (cnt + 1)

/-- `loadGeoIPFromChunks(chunksDir)` (chunked-loader.ts, lines 32-82),
with the module state passed and returned explicitly.  Returns the cached
reader when present; otherwise reads the manifest, allocates a buffer of
`metadata.totalSize` bytes, runs the chunk loop, and on success caches
and returns a reader built from the filled buffer.  On an error the
module state is unchanged apart from the instrumentation counter. -/
def loadGeoIPFromChunks (gunzip : List Nat → List Nat)
    (alloc : Nat → List Nat) (dir : ChunksDir) (st : LoaderState) :
    Except String Reader × LoaderState :=
  match st.cachedReader with
  | some r => (.ok r, st)
  | none =>
    match dir.metadata with
    | none => (.error "Metadata file not found", st)
    | some metadata =>
      match loadLoop gunzip dir metadata metadata.numChunks 0
          (alloc metadata.totalSize) 0 st.decompressCount with
      | (.error e, cnt) => (.error e, { st with decompressCount := cnt })
      | (.ok fullBuffer, cnt) =>
        (.ok ⟨fullBuffer⟩,
         { cachedReader := some ⟨fullBuffer⟩,
           cachedBuffer := some fullBuffer,
           decompressCount := cnt })

/-- `hasChunkedDatabase(chunksDir)` (chunked-loader.ts, lines 87-90):
the chunked database exists iff `metadata.json` exists. -/
def hasChunkedDatabase (dir : ChunksDir) : Bool :=
  dir.metadata.isSome

/-- Module state of preload.ts (lines 119-120).  `preloadPromise` exists
only while a preload is executing; in the atomic model it is set and
cleared within a single transition and is therefore not part of the
persistent state. -/
structure PreloadState where
  isPreloaded : Bool
  loader : LoaderState
deriving DecidableEq

/-- `preloadGeoIPDatabase()` (preload.ts, lines 126-168): if already
preloaded, returns at once; otherwise, when a chunked database exists,
runs the loader inside a `try`/`catch` that logs any failure and returns
normally ("Don't throw - allow app to start even if preload fails"). -/
def preloadGeoIPDatabase (gunzip : List Nat → List Nat)
    (alloc : Nat → List Nat) (dir : ChunksDir) (ps : PreloadState) :
    Except String Unit × PreloadState :=
  if ps.isPreloaded then (.ok (), ps)
  else if hasChunkedDatabase dir then
    match loadGeoIPFromChunks gunzip alloc dir ps.loader with
    | (.error _, ls) => (.ok (), { ps with loader := ls })
    | (.ok _, ls) => (.ok (), { isPreloaded := true, loader := ls })
  else (.ok (), ps)

/-! ### ip-to-country.ts -/

/-- The two database formats (ip-to-country.ts, line 13). -/
inductive DBType
  | maxmind
  | ipinfo
deriving DecidableEq

/-- The four database locations checked by `detectDatabaseType`
(ip-to-country.ts, lines 29-39), relative to `lib/maxmind-db`. -/
inductive DBLocation
  | chunksDir
  | countryMmdb
  | ipinfoLiteMmdb
  | geoLite2CityMmdb
deriving DecidableEq

/-- The `{ path, type, chunked }` record returned by
`detectDatabaseType`. -/
structure DBChoice where
  path : DBLocation
  type : DBType
  chunked : Bool
deriving DecidableEq

/-- The files under `lib/maxmind-db` that the module consults: the
chunks directory and the three monolithic database files. -/
structure FS where
  chunks : ChunksDir
  countryMmdb : Option (List Nat)
  ipinfoLiteMmdb : Option (List Nat)
  geoLite2CityMmdb : Option (List Nat)

/-- `detectDatabaseType()` (ip-to-country.ts, lines 25-54): first match
wins, in the order chunked directory, `country.mmdb` (IPInfo),
`ipinfo_lite.mmdb` (IPInfo), `GeoLite2-City.mmdb` (MaxMind); throws when
none exists. -/
def detectDatabaseType (fs : FS) : Except String DBChoice :=
  if hasChunkedDatabase fs.chunks then
    .ok ⟨.chunksDir, .maxmind, true⟩
  else if fs.countryMmdb.isSome then
    .ok ⟨.countryMmdb, .ipinfo, false⟩
  else if fs.ipinfoLiteMmdb.isSome then
    .ok ⟨.ipinfoLiteMmdb, .ipinfo, false⟩
  else if fs.geoLite2CityMmdb.isSome then
    .ok ⟨.geoLite2CityMmdb, .maxmind, false⟩
  else
    .error "No GeoIP database found. Please add country.mmdb, ipinfo_lite.mmdb, or GeoLite2-City.mmdb to lib/maxmind-db/"

/-- `fs.readFileSync` on a selected monolithic database file. -/
def fileFor (fs : FS) : DBLocation → Option (List Nat)
  | .chunksDir => none
  | .countryMmdb => fs.countryMmdb
  | .ipinfoLiteMmdb => fs.ipinfoLiteMmdb
  | .geoLite2CityMmdb => fs.geoLite2CityMmdb

/-- `country` object of a MaxMind `CityResponse`. -/
structure CountryRecord where
  iso_code : Option String
deriving DecidableEq

/-- The raw record returned by `reader.get(ip)`.  At runtime the shape
always matches the database that produced it: a flat
`{ country?: string }` for IPInfo databases, a nested
`{ country?: { iso_code? }, registered_country?: { iso_code? } }` for
MaxMind databases; the embedding keeps both shapes in one sum. -/
inductive RawRecord
  | ipinfo (country : Option String)
  | maxmind (country : Option CountryRecord)
      (registered_country : Option CountryRecord)
deriving DecidableEq

/-- JavaScript `v || null` on an optional string: `undefined`, `null`
and the empty string are falsy. -/
def jsOrNull : Option String → Option String
  | some s => if s = "" then none else some s
  | none => none

/-- `extractCountryCode(result)` (ip-to-country.ts, lines 136-160),
branching on the module's `databaseType` flag.  The IPInfo branch is
`ipinfoResult.country || null`; the MaxMind branch returns
`country.iso_code` when truthy, else `registered_country.iso_code` when
truthy, else null.  A record whose shape does not match the flag cannot
be produced by the program (the flag is set by whichever database was
opened) and is mapped to null. -/
def extractCountryCode (databaseType : DBType) (result : Option RawRecord) :
    Option String :=
  match result with
  | none => none
  | some r =>
    match databaseType, r with
    | .ipinfo, .ipinfo c => jsOrNull c
    | .maxmind, .maxmind c rc =>
      match jsOrNull (c.bind CountryRecord.iso_code) with
      | some s => some s
      | none => jsOrNull (rc.bind CountryRecord.iso_code)
    | .ipinfo, .maxmind _ _ => none
    | .maxmind, .ipinfo _ => none

/-- The IP → country-code cache (ip-to-country.ts, line 18): a JS `Map`
keyed by the IP string, holding the resolved code or the cached `null`;
modelled as an insertion-ordered association list, as a JS `Map` iterates
in insertion order. -/
abbrev IPCache := List (String × Option String)

/-- `MAX_CACHE_SIZE` (ip-to-country.ts, line 19). -/
def MAX_CACHE_SIZE : Nat := 10000

/-- `map.has(k)`. -/
def mapHas (m : IPCache) (k : String) : Bool :=
  m.any fun p => p.1 == k

/-- `map.get(k)` (`none` when the key is absent). -/
def mapGet (m : IPCache) (k : String) : Option (Option String) :=
  (m.find? fun p => p.1 == k).map Prod.snd

/-- `map.delete(k)`: removes the (unique) entry with key `k`. -/
def mapDelete (m : IPCache) (k : String) : IPCache :=
  m.eraseP fun p => p.1 == k

/-- `map.set(k, v)`: updates an existing entry in place (keeping its
position) or appends a new entry at the end of the iteration order. -/
def mapSet (m : IPCache) (k : String) (v : Option String) : IPCache :=
  if mapHas m k = true then
    m.map fun p => if p.1 == k then (k, v) else p
  else m ++ [(k, v)]

/-- `map.keys().next().value`: the first key in insertion order. -/
def firstKeyOf (m : IPCache) : Option String :=
  m.head?.map Prod.fst

/-- `ipCountryCache.get(ip) || null` (ip-to-country.ts, lines 176 and
214). -/
def cacheValue (m : IPCache) (k : String) : Option String :=
  jsOrNull ((mapGet m k).getD none)

/-- The eviction fragment (ip-to-country.ts, lines 185-191): when
`ipCountryCache.size >= MAX_CACHE_SIZE`, the first (oldest-inserted)
key is deleted — provided it is truthy (`if (firstKey)`), the empty
string being the only falsy string. -/
def cacheEvict (m : IPCache) : IPCache :=
  if MAX_CACHE_SIZE ≤ m.length then
    match firstKeyOf m with
    | some k => if k = "" then m else mapDelete m k
    | none => m
  else m

/-- The cache-insertion fragment (ip-to-country.ts, lines 184-192 and
222-230): evict if at capacity, then set the new entry. -/
def cacheInsert (m : IPCache) (ip : String) (v : Option String) : IPCache :=
  mapSet (cacheEvict m) ip v

/-- Module state of ip-to-country.ts (lines 12-18) together with the
chunked-loader module state it depends on and the provider-query
instrumentation counter.  `isInitializing`/`initPromise` exist only while
an initialization is executing and vanish in the atomic model. -/
structure GeoState where
  geoIPReader : Option Reader
  databaseType : DBType
  ipCountryCache : IPCache
  loader : LoaderState
  queries : Nat
deriving DecidableEq

/-- The ambient environment: the files on disk and the two opaque
third-party functions. -/
structure Env where
  fs : FS
  gunzip : List Nat → List Nat
  alloc : Nat → List Nat
  readerGet : Reader → String → Except String (Option RawRecord)

/-- `initGeoIPReaderAsync()` (ip-to-country.ts, lines 59-96): returns the
cached reader when present; otherwise selects a database and builds the
reader, from chunks for a chunked database and from a single file read
otherwise, recording the database type; on failure the reader stays
unset. -/
def initGeoIPReaderAsync (env : Env) (st : GeoState) :
    Except String Reader × GeoState :=
  match st.geoIPReader with
  | some r => (.ok r, st)
  | none =>
    match detectDatabaseType env.fs with
    | .error e => (.error e, st)
    | .ok choice =>
      if choice.chunked then
        match loadGeoIPFromChunks env.gunzip env.alloc env.fs.chunks st.loader with
        | (.error e, ls) => (.error e, { st with loader := ls })
        | (.ok r, ls) =>
          (.ok r, { st with geoIPReader := some r,
                            databaseType := choice.type, loader := ls })
      else
        match fileFor env.fs choice.path with
        | none => (.error "ENOENT: no such file", st)
        | some dbBuffer =>
          (.ok ⟨dbBuffer⟩,
           { st with geoIPReader := some ⟨dbBuffer⟩,
                     databaseType := choice.type })

/-- The message thrown by the synchronous initializer when it meets a
chunked database that has not been preloaded (ip-to-country.ts, lines
115-118). -/
def notPreloadedMsg : String :=
  "Chunked database detected but not preloaded. The database should be loaded at application startup via instrumentation.ts"

/-- `initGeoIPReader()` (ip-to-country.ts, lines 102-131), the
synchronous wrapper: returns the cached reader when present; for a
chunked database it re-checks `geoIPReader` (still unset on this path)
and throws the not-preloaded error instead of decompressing on the
calling thread; a monolithic database is read synchronously. -/
def initGeoIPReader (env : Env) (st : GeoState) :
    Except String Reader × GeoState :=
  match st.geoIPReader with
  | some r => (.ok r, st)
  | none =>
    match detectDatabaseType env.fs with
    | .error e => (.error e, st)
    | .ok choice =>
      if choice.chunked then
        match st.geoIPReader with
        | some r => (.ok r, st)
        | none => (.error notPreloadedMsg, st)
      else
        match fileFor env.fs choice.path with
        | none => (.error "ENOENT: no such file", st)
        | some dbBuffer =>
          (.ok ⟨dbBuffer⟩,
           { st with geoIPReader := some ⟨dbBuffer⟩,
                     databaseType := choice.type })

/-- `getCountryCodeFromIPAsync(ip)` (ip-to-country.ts, lines 169-198):
guard against empty/unspecified addresses, consult the cache, otherwise
initialize the reader, query it (counted), extract the country code and
cache the result (even `null`); any thrown error is caught and becomes a
`null` result. -/
def getCountryCodeFromIPAsync (env : Env) (st : GeoState) (ip : String) :
    Except String (Option String) × GeoState :=
  if ip = "" ∨ ip = "::" then (.ok none, st)
  else if mapHas st.ipCountryCache ip = true then
    (.ok (cacheValue st.ipCountryCache ip), st)
  else
    match initGeoIPReaderAsync env st with
    | (.error _, st1) => (.ok none, st1)
    | (.ok reader, st1) =>
      let st2 : GeoState := { st1 with queries := st1.queries + 1 }
      match env.readerGet reader ip with
      | .error _ => (.ok none, st2)
      | .ok result =>
        let countryCode := extractCountryCode st2.databaseType result
        (.ok countryCode,
         { st2 with
             ipCountryCache := cacheInsert st2.ipCountryCache ip countryCode })

/-- `getCountryCodeFromIP(ip)` (ip-to-country.ts, lines 207-236): the
synchronous version; identical except that it uses the synchronous
initializer. -/
def getCountryCodeFromIP (env : Env) (st : GeoState) (ip : String) :
    Except String (Option String) × GeoState :=
  if ip = "" ∨ ip = "::" then (.ok none, st)
  else if mapHas st.ipCountryCache ip = true then
    (.ok (cacheValue st.ipCountryCache ip), st)
  else
    match initGeoIPReader env st with
    | (.error _, st1) => (.ok none, st1)
    | (.ok reader, st1) =>
      let st2 : GeoState := { st1 with queries := st1.queries + 1 }
      match env.readerGet reader ip with
      | .error _ => (.ok none, st2)
      | .ok result =>
        let countryCode := extractCountryCode st2.databaseType result
        (.ok countryCode,
         { st2 with
             ipCountryCache := cacheInsert st2.ipCountryCache ip countryCode })

/-! ### Derived operations used to state the claims -/

/-- One public resolver call (the two calling conventions). -/
inductive ResolverOp
  | asyncOp (ip : String)
  | syncOp (ip : String)

/-- State transition of one resolver call. -/
def runOp (env : Env) (st : GeoState) : ResolverOp → GeoState
  | .asyncOp ip => (getCountryCodeFromIPAsync env st ip).2
  | .syncOp ip => (getCountryCodeFromIP env st ip).2

/-- State after a sequence of resolver calls. -/
def runOps (env : Env) (st : GeoState) (ops : List ResolverOp) : GeoState :=
  ops.foldl (runOp env) st

/-- A sequence of cache insertions (one per key, value `none`). -/
def insertAll (m : IPCache) (ks : List String) : IPCache :=
  ks.foldl (fun acc k => cacheInsert acc k none) m

/-- A sequence of calls to `loadGeoIPFromChunks`, collecting every
caller's result. -/
def loadCalls (gunzip : List Nat → List Nat) (alloc : Nat → List Nat)
    (dir : ChunksDir) : Nat → LoaderState →
    List (Except String Reader) × LoaderState
  | 0, st => ([], st)
  | k + 1, st =>
    let p := loadGeoIPFromChunks gunzip alloc dir st
    let q := loadCalls gunzip alloc dir k p.2
    (p.1 :: q.1, q.2)

/-- Module state at process start (chunked-loader.ts, lines 24-25). -/
def initialLoaderState : LoaderState :=
  { cachedReader := none, cachedBuffer := none, decompressCount := 0 }

/-- Module state at process start (ip-to-country.ts, lines 12-18). -/
def initialGeoState : GeoState :=
  { geoIPReader := none, databaseType := .maxmind, ipCountryCache := [],
    loader := initialLoaderState, queries := 0 }

/-- The decompressed bytes of one chunk. -/
def decompOf (gunzip : List Nat → List Nat) (dir : ChunksDir)
    (c : ChunkEntry) : List Nat :=
  gunzip ((dir.files c.filename).getD [])

/-- Sum of the manifest-recorded decompressed sizes. -/
def sumSizes (cs : List ChunkEntry) : Nat :=
  (cs.map ChunkEntry.originalSize).sum

/-- Every chunk file of the list exists and decompresses to exactly its
recorded `originalSize`. -/
def chunkFilesOk (gunzip : List Nat → List Nat) (dir : ChunksDir)
    (cs : List ChunkEntry) : Prop :=
  ∀ c ∈ cs, (dir.files c.filename).isSome = true ∧
    (decompOf gunzip dir c).length = c.originalSize

/-- The manifest invariants (spec §3): `numChunks` equals the number of
chunk entries, the entries are ordered by `index` ascending and
contiguous from 0, and the decompressed sizes sum to `totalSize`. -/
def manifestValid (md : ChunkMetadata) : Prop :=
  md.numChunks = md.chunks.length ∧
  md.chunks.map ChunkEntry.index = List.range md.chunks.length ∧
  sumSizes md.chunks = md.totalSize

/-- Cache states reachable by the resolver: bounded by the capacity and
holding no empty-string key (the input guard rejects the only falsy
string key before any insertion). -/
def cacheOK (m : IPCache) : Prop :=
  m.length ≤ MAX_CACHE_SIZE ∧ ∀ p ∈ m, p.1 ≠ ""

/-! ### Chunk-loader lemmas -/

theorem bufCopy_eq {src target : List Nat} {tStart : Nat}
    (h : tStart + src.length ≤ target.length) :
    bufCopy src target tStart =
      target.take tStart ++ src ++ target.drop (tStart + src.length) := by
  unfold bufCopy
  rw [List.take_of_length_le (by omega : src.length ≤ target.length - tStart)]

theorem bufCopy_length {src target : List Nat} {tStart : Nat}
    (h : tStart + src.length ≤ target.length) :
    (bufCopy src target tStart).length = target.length := by
  unfold bufCopy
  simp only [List.length_append, List.length_take, List.length_drop]
  omega

theorem bufCopy_take {src target : List Nat} {tStart : Nat}
    (h : tStart + src.length ≤ target.length) :
    (bufCopy src target tStart).take (tStart + src.length) =
      target.take tStart ++ src := by
  rw [bufCopy_eq h, List.append_assoc, List.take_append_eq_append_take]
  have h1 : (target.take tStart).length = tStart := by
    simp only [List.length_take]; omega
  rw [List.take_of_length_le (by omega : (target.take tStart).length ≤ tStart + src.length),
    h1, List.take_append_eq_append_take]
  have h2 : tStart + src.length - tStart = src.length := by omega
  rw [h2, List.take_length, Nat.sub_self, List.take_zero, List.append_nil]

theorem decomp_flatten_length (gunzip : List Nat → List Nat)
    (dir : ChunksDir) {cs : List ChunkEntry}
    (h : chunkFilesOk gunzip dir cs) :
    ((cs.map (decompOf gunzip dir)).flatten).length = sumSizes cs := by
  induction cs with
  | nil => simp [sumSizes]
  | cons c cs ih =>
    have h1 := (h c (List.mem_cons_self c cs)).2
    have h2 : chunkFilesOk gunzip dir cs := fun x hx => h x (List.mem_cons_of_mem _ hx)
    simp only [List.map_cons, List.flatten_cons, List.length_append, sumSizes,
      List.sum_cons] at h1 ih ⊢
    rw [h1, ih h2]

/-- Full run of the chunk loop: starting at index `i` with `remaining`
iterations left to cover exactly the rest of the chunk list, and a
buffer sized to hold the remaining decompressed bytes after `offset`,
the loop succeeds and fills the buffer past `offset` with the
decompressed chunks in order, decompressing each remaining chunk exactly
once. -/
theorem loadLoop_ok (gunzip : List Nat → List Nat) (dir : ChunksDir)
    (md : ChunkMetadata) (hfiles : chunkFilesOk gunzip dir md.chunks) :
    ∀ (remaining i : Nat) (buf : List Nat) (offset cnt : Nat),
      i + remaining = md.chunks.length →
      offset + sumSizes (md.chunks.drop i) = buf.length →
      loadLoop gunzip dir md remaining i buf offset cnt =
        (.ok (buf.take offset ++
           ((md.chunks.drop i).map (decompOf gunzip dir)).flatten),
         cnt + remaining) := by
  intro remaining
  induction remaining with
  | zero =>
    intro i buf offset cnt hi hlen
    have hge : md.chunks.length ≤ i := by omega
    rw [List.drop_eq_nil_of_le hge] at hlen ⊢
    simp only [sumSizes, List.map_nil, List.sum_nil, Nat.add_zero] at hlen
    subst hlen
    simp [loadLoop, List.take_length]
  | succ n ih =>
    intro i buf offset cnt hi hlen
    have hilt : i < md.chunks.length := by omega
    have hc : md.chunks[i]? = some md.chunks[i] := List.getElem?_eq_getElem hilt
    have hmem : md.chunks[i] ∈ md.chunks := List.getElem_mem hilt
    obtain ⟨hex, hsz⟩ := hfiles _ hmem
    obtain ⟨content, hcontent⟩ := Option.isSome_iff_exists.mp hex
    have hdec : gunzip content = decompOf gunzip dir md.chunks[i] := by
      rw [decompOf, hcontent]; rfl
    have hdrop : md.chunks.drop i = md.chunks[i] :: md.chunks.drop (i + 1) :=
      List.drop_eq_getElem_cons hilt
    have hrest : sumSizes (md.chunks.drop i) =
        (decompOf gunzip dir md.chunks[i]).length +
          sumSizes (md.chunks.drop (i + 1)) := by
      rw [hdrop]; simp only [sumSizes, List.map_cons, List.sum_cons, hsz]
    have hfit : offset + (gunzip content).length ≤ buf.length := by
      rw [hdec]; omega
    simp only [loadLoop, hc, hcontent]
    rw [if_neg (fun hne => hne (by rw [hdec]; exact hsz))]
    have hgl : (gunzip content).length = md.chunks[i].originalSize := by
      rw [hdec]; exact hsz
    have hbl : (bufCopy (gunzip content) buf offset).length = buf.length :=
      bufCopy_length hfit
    have hso : (decompOf gunzip dir md.chunks[i]).length =
        md.chunks[i].originalSize := hsz
    rw [ih (i + 1) (bufCopy (gunzip content) buf offset)
      (offset + (gunzip content).length) (cnt + 1) (by omega) (by omega)]
    rw [bufCopy_take hfit, hdrop]
    have hcc : cnt + 1 + n = cnt + (n + 1) := by omega
    simp only [List.map_cons, List.flatten_cons, hdec, List.append_assoc, hcc]

/-- Successful reconstruction: with a valid manifest and intact chunk
files, a fresh call decompresses every chunk once and caches a reader
over the concatenation of the decompressed chunks in index order. -/
theorem loadGeoIPFromChunks_ok (gunzip : List Nat → List Nat)
    (alloc : Nat → List Nat) (dir : ChunksDir) (st : LoaderState)
    (md : ChunkMetadata)
    (hcache : st.cachedReader = none)
    (hmeta : dir.metadata = some md)
    (hvalid : manifestValid md)
    (halloc : ∀ n, (alloc n).length = n)
    (hfiles : chunkFilesOk gunzip dir md.chunks) :
    loadGeoIPFromChunks gunzip alloc dir st =
      (.ok ⟨(md.chunks.map (decompOf gunzip dir)).flatten⟩,
       { cachedReader := some ⟨(md.chunks.map (decompOf gunzip dir)).flatten⟩,
         cachedBuffer := some ((md.chunks.map (decompOf gunzip dir)).flatten),
         decompressCount := st.decompressCount + md.chunks.length }) := by
  obtain ⟨hn, _hidx, hsum⟩ := hvalid
  simp only [loadGeoIPFromChunks, hcache, hmeta]
  rw [loadLoop_ok gunzip dir md hfiles md.numChunks 0
    (alloc md.totalSize) 0 st.decompressCount (by omega)
    (by rw [List.drop_zero, Nat.zero_add, halloc, hsum])]
  simp [List.take_zero, hn]

/-- A call that finds a cached reader returns it with no state change
(chunked-loader.ts, lines 34-36). -/
theorem loadGeoIPFromChunks_cached (gunzip : List Nat → List Nat)
    (alloc : Nat → List Nat) (dir : ChunksDir) (st : LoaderState)
    (r : Reader) (h : st.cachedReader = some r) :
    loadGeoIPFromChunks gunzip alloc dir st = (.ok r, st) := by
  simp only [loadGeoIPFromChunks, h]

/-- A successful call leaves the returned reader in the module cache
(chunked-loader.ts, line 78). -/
theorem loadGeoIPFromChunks_ok_caches (gunzip : List Nat → List Nat)
    (alloc : Nat → List Nat) (dir : ChunksDir) (st st1 : LoaderState)
    (r : Reader)
    (h : loadGeoIPFromChunks gunzip alloc dir st = (.ok r, st1)) :
    st1.cachedReader = some r := by
  unfold loadGeoIPFromChunks at h
  cases hc : st.cachedReader with
  | some r0 =>
    rw [hc] at h
    simp only [Prod.mk.injEq, Except.ok.injEq] at h
    obtain ⟨rfl, rfl⟩ := h
    exact hc
  | none =>
    rw [hc] at h
    cases hm : dir.metadata with
    | none => rw [hm] at h; simp at h
    | some md =>
      rw [hm] at h
      simp only [] at h
      rcases hl : loadLoop gunzip dir md md.numChunks 0 (alloc md.totalSize) 0
        st.decompressCount with ⟨res, cnt⟩
      rw [hl] at h
      cases res with
      | error e => simp at h
      | ok fullBuffer =>
        simp only [Prod.mk.injEq, Except.ok.injEq] at h
        obtain ⟨rfl, rfl⟩ := h
        rfl

/-! ### Claim C1 -/

/-- **C1**: for every manifest satisfying the manifest invariants whose
chunk files each decompress to exactly their recorded `originalSize`, a
fresh `loadGeoIPFromChunks` call returns a provider built from a single
buffer of exactly `totalSize` bytes that equals the concatenation of the
decompressed chunks in index order (each copied at the running offset),
and caches it. -/
theorem C1_chunked_load_reconstructs (gunzip : List Nat → List Nat)
    (alloc : Nat → List Nat) (dir : ChunksDir) (st : LoaderState)
    (md : ChunkMetadata)
    (hcache : st.cachedReader = none)
    (hmeta : dir.metadata = some md)
    (hvalid : manifestValid md)
    (halloc : ∀ n, (alloc n).length = n)
    (hfiles : chunkFilesOk gunzip dir md.chunks) :
    loadGeoIPFromChunks gunzip alloc dir st =
      (.ok ⟨(md.chunks.map (decompOf gunzip dir)).flatten⟩,
       { cachedReader := some ⟨(md.chunks.map (decompOf gunzip dir)).flatten⟩,
         cachedBuffer := some ((md.chunks.map (decompOf gunzip dir)).flatten),
         decompressCount := st.decompressCount + md.chunks.length }) ∧
    ((md.chunks.map (decompOf gunzip dir)).flatten).length = md.totalSize :=
  ⟨loadGeoIPFromChunks_ok gunzip alloc dir st md hcache hmeta hvalid halloc hfiles,
   by rw [decomp_flatten_length gunzip dir hfiles, hvalid.2.2]⟩

/-! ### Concrete witness data for the chunk loader -/

/-- Identity decompression, for witnesses. -/
def wGunzip : List Nat → List Nat := id

/-- Zero-filled allocation, for witnesses. -/
def wAlloc : Nat → List Nat := fun n => List.replicate n 0

def wEntry0 : ChunkEntry := ⟨0, 3, 3, "chunk_000.gz"⟩

def wEntry1 : ChunkEntry := ⟨1, 2, 2, "chunk_001.gz"⟩

def wMeta : ChunkMetadata := ⟨5, 3, 2, [wEntry0, wEntry1]⟩

def wFiles : String → Option (List Nat) := fun s =>
  if s = "chunk_000.gz" then some [10, 11, 12]
  else if s = "chunk_001.gz" then some [13, 14] else none

def wDir : ChunksDir := ⟨some wMeta, wFiles⟩

/-- Like `wFiles`, but chunk 1 decompresses to 1 byte instead of the
recorded 2. -/
def wBadFiles : String → Option (List Nat) := fun s =>
  if s = "chunk_000.gz" then some [10, 11, 12]
  else if s = "chunk_001.gz" then some [13] else none

def wBadDir : ChunksDir := ⟨some wMeta, wBadFiles⟩

/-- Witness for C1 at a concrete two-chunk directory. -/
theorem C1_chunked_load_reconstructs_witness :
    manifestValid wMeta ∧ chunkFilesOk wGunzip wDir wMeta.chunks ∧
    (loadGeoIPFromChunks wGunzip wAlloc wDir initialLoaderState =
      (.ok ⟨(wMeta.chunks.map (decompOf wGunzip wDir)).flatten⟩,
       { cachedReader := some ⟨(wMeta.chunks.map (decompOf wGunzip wDir)).flatten⟩,
         cachedBuffer := some ((wMeta.chunks.map (decompOf wGunzip wDir)).flatten),
         decompressCount :=
           initialLoaderState.decompressCount + wMeta.chunks.length }) ∧
     ((wMeta.chunks.map (decompOf wGunzip wDir)).flatten).length =
       wMeta.totalSize) :=
  ⟨⟨rfl, rfl, rfl⟩, by unfold chunkFilesOk; decide,
   C1_chunked_load_reconstructs wGunzip wAlloc wDir initialLoaderState wMeta
     rfl rfl ⟨rfl, rfl, rfl⟩ (fun n => List.length_replicate n 0)
     (by unfold chunkFilesOk; decide)⟩

/-! ### Claim C2 -/

/-- **C2**: the body of `loadGeoIPFromChunks` contains no `await`
(every file read and decompression is synchronous), so under Node's
run-to-completion scheduling a call executes atomically and concurrent
callers of the same directory serialize; concurrency is therefore
modelled as a sequence of atomic calls.  Once the first call completes
successfully, every subsequent caller receives exactly the reader built
by that single completed pass, and the final state is the first call's
state: the decompress counter never moves again (no second decompression
pass) and no caller sees any buffer other than the fully reconstructed
one. -/
theorem C2_single_flight (gunzip : List Nat → List Nat)
    (alloc : Nat → List Nat) (dir : ChunksDir) (st st1 : LoaderState)
    (r : Reader) (k : Nat)
    (h : loadGeoIPFromChunks gunzip alloc dir st = (.ok r, st1)) :
    loadCalls gunzip alloc dir (k + 1) st =
      (List.replicate (k + 1) (.ok r), st1) := by
  have hcached := loadGeoIPFromChunks_ok_caches gunzip alloc dir st st1 r h
  have hrep : ∀ m, loadCalls gunzip alloc dir m st1 =
      (List.replicate m (.ok r), st1) := by
    intro m
    induction m with
    | zero => rfl
    | succ m ihm =>
      simp only [loadCalls,
        loadGeoIPFromChunks_cached gunzip alloc dir st1 r hcached, ihm,
        List.replicate_succ]
  simp only [loadCalls, h, hrep k, List.replicate_succ]

/-- Witness for C2: three sequential callers of the concrete directory
all receive the reader built by the first call's single pass (two
decompressions in total). -/
theorem C2_single_flight_witness :
    loadGeoIPFromChunks wGunzip wAlloc wDir initialLoaderState =
      (.ok ⟨[10, 11, 12, 13, 14]⟩,
       { cachedReader := some ⟨[10, 11, 12, 13, 14]⟩,
         cachedBuffer := some [10, 11, 12, 13, 14],
         decompressCount := 2 }) ∧
    loadCalls wGunzip wAlloc wDir 3 initialLoaderState =
      (List.replicate 3 (.ok ⟨[10, 11, 12, 13, 14]⟩),
       { cachedReader := some ⟨[10, 11, 12, 13, 14]⟩,
         cachedBuffer := some [10, 11, 12, 13, 14],
         decompressCount := 2 }) :=
  ⟨by rfl,
   C2_single_flight wGunzip wAlloc wDir initialLoaderState
     { cachedReader := some ⟨[10, 11, 12, 13, 14]⟩,
       cachedBuffer := some [10, 11, 12, 13, 14], decompressCount := 2 }
     ⟨[10, 11, 12, 13, 14]⟩ 2 (by rfl)⟩

/-! ### Claim C4 -/

/-- When every chunk before position `i` is intact but chunk `i`
decompresses to the wrong size, the loop runs up to position `i`,
decompresses `i + 1` chunks, and throws the integrity error naming
position `i`. -/
theorem loadLoop_err (gunzip : List Nat → List Nat) (dir : ChunksDir)
    (md : ChunkMetadata) (i : Nat) (ci : ChunkEntry)
    (hci : md.chunks[i]? = some ci)
    (hex : (dir.files ci.filename).isSome = true)
    (hbad : (decompOf gunzip dir ci).length ≠ ci.originalSize)
    (hprev : ∀ j c, j < i → md.chunks[j]? = some c →
      (dir.files c.filename).isSome = true ∧
      (decompOf gunzip dir c).length = c.originalSize) :
    ∀ (d remaining j : Nat) (buf : List Nat) (offset cnt : Nat),
      i - j = d → j ≤ i → i < j + remaining →
      loadLoop gunzip dir md remaining j buf offset cnt =
        (.error ("Chunk " ++ toString i ++ " size mismatch: expected " ++
            toString ci.originalSize ++ ", got " ++
            toString (decompOf gunzip dir ci).length),
         cnt + (i - j) + 1) := by
  intro d
  induction d with
  | zero =>
    intro remaining j buf offset cnt hd hji hlt
    have hj : j = i := by omega
    subst hj
    obtain ⟨rem, rfl⟩ : ∃ rem, remaining = rem + 1 := ⟨remaining - 1, by omega⟩
    obtain ⟨content, hcontent⟩ := Option.isSome_iff_exists.mp hex
    have hdec : gunzip content = decompOf gunzip dir ci := by
      rw [decompOf, hcontent]; rfl
    simp only [loadLoop, hci, hcontent]
    rw [if_pos (by rw [hdec]; exact hbad), hdec]
    simp
  | succ dn ihd =>
    intro remaining j buf offset cnt hd hji hlt
    have hjlt : j < i := by omega
    have hil : i < md.chunks.length := (List.getElem?_eq_some.mp hci).1
    have hjl : j < md.chunks.length := by omega
    have hcj : md.chunks[j]? = some md.chunks[j] := List.getElem?_eq_getElem hjl
    obtain ⟨hexj, hszj⟩ := hprev j md.chunks[j] hjlt hcj
    obtain ⟨content, hcontent⟩ := Option.isSome_iff_exists.mp hexj
    have hdec : gunzip content = decompOf gunzip dir md.chunks[j] := by
      rw [decompOf, hcontent]; rfl
    obtain ⟨rem, rfl⟩ : ∃ rem, remaining = rem + 1 := ⟨remaining - 1, by omega⟩
    simp only [loadLoop, hcj, hcontent]
    rw [if_neg (fun hne => hne (by rw [hdec]; exact hszj))]
    rw [ihd rem (j + 1) (bufCopy (gunzip content) buf offset)
      (offset + (gunzip content).length) (cnt + 1) (by omega) (by omega)
      (by omega)]
    have hcc : cnt + 1 + (i - (j + 1)) + 1 = cnt + (i - j) + 1 := by omega
    rw [hcc]

/-- **C4**: if a chunk's decompressed length differs from the
`originalSize` the manifest records for it (the chunks before it being
intact), the whole load aborts with the integrity error referencing that
chunk's index, and the module cache stays empty: no provider — in
particular no partially built one — is cached, so a later call finds the
cached reader still absent. -/
theorem C4_integrity_abort (gunzip : List Nat → List Nat)
    (alloc : Nat → List Nat) (dir : ChunksDir) (st : LoaderState)
    (md : ChunkMetadata) (i : Nat) (ci : ChunkEntry)
    (hcache : st.cachedReader = none)
    (hmeta : dir.metadata = some md)
    (hn : md.numChunks = md.chunks.length)
    (hci : md.chunks[i]? = some ci)
    (hidx : ci.index = i)
    (hex : (dir.files ci.filename).isSome = true)
    (hbad : (decompOf gunzip dir ci).length ≠ ci.originalSize)
    (hprev : ∀ j c, j < i → md.chunks[j]? = some c →
      (dir.files c.filename).isSome = true ∧
      (decompOf gunzip dir c).length = c.originalSize) :
    loadGeoIPFromChunks gunzip alloc dir st =
      (.error ("Chunk " ++ toString ci.index ++ " size mismatch: expected " ++
          toString ci.originalSize ++ ", got " ++
          toString (decompOf gunzip dir ci).length),
       { st with decompressCount := st.decompressCount + i + 1 }) ∧
    ({ st with decompressCount := st.decompressCount + i + 1 } :
        LoaderState).cachedReader = none := by
  have hil : i < md.chunks.length := (List.getElem?_eq_some.mp hci).1
  constructor
  · simp only [loadGeoIPFromChunks, hcache, hmeta]
    rw [loadLoop_err gunzip dir md i ci hci hex hbad hprev i md.numChunks 0
      (alloc md.totalSize) 0 st.decompressCount (by omega) (by omega)
      (by omega)]
    rw [hidx]
    simp
  · exact hcache

/-- Witness for C4: the concrete directory whose second chunk
decompresses to 1 byte instead of the recorded 2 makes the load fail
with the integrity error for chunk 1 and leaves the cache empty. -/
theorem C4_integrity_abort_witness :
    (decompOf wGunzip wBadDir wEntry1).length ≠ wEntry1.originalSize ∧
    (loadGeoIPFromChunks wGunzip wAlloc wBadDir initialLoaderState =
      (.error ("Chunk " ++ toString wEntry1.index ++
          " size mismatch: expected " ++ toString wEntry1.originalSize ++
          ", got " ++ toString (decompOf wGunzip wBadDir wEntry1).length),
       { initialLoaderState with
           decompressCount := initialLoaderState.decompressCount + 1 + 1 }) ∧
     ({ initialLoaderState with
          decompressCount := initialLoaderState.decompressCount + 1 + 1 } :
         LoaderState).cachedReader = none) :=
  ⟨by decide,
   C4_integrity_abort wGunzip wAlloc wBadDir initialLoaderState wMeta 1 wEntry1
     rfl rfl rfl rfl rfl rfl (by decide)
     (fun j c hj hc => by
       interval_cases j
       have h0 : wMeta.chunks[0]? = some wEntry0 := rfl
       rw [h0] at hc
       obtain rfl : wEntry0 = c := Option.some.inj hc
       decide)⟩

/-! ### Claim C9 -/

/-- **C9**: `preloadGeoIPDatabase` never throws or rejects: whatever the
directory contents and however the load goes, it returns normally (the
`catch` block logs and deliberately does not re-throw), so a preload
failure cannot prevent the process from starting. -/
theorem C9_preload_never_fails (gunzip : List Nat → List Nat)
    (alloc : Nat → List Nat) (dir : ChunksDir) (ps : PreloadState) :
    (preloadGeoIPDatabase gunzip alloc dir ps).1 = .ok () := by
  unfold preloadGeoIPDatabase
  split
  · rfl
  · split
    · split <;> rfl
    · rfl

/-! ### Claim C5 -/

/-- **C5**: the database selector chooses by priority with the first
match winning — the chunked directory (manifest present), then the
compact third-party "country" file `country.mmdb`, then the compact
"lite" variant `ipinfo_lite.mmdb`, then the richer
`GeoLite2-City.mmdb` — and fails with the "no database found" error
when none of the four exists.  The first conjunct does not look at the
monolithic files at all: a chunked directory wins even when
`country.mmdb` is also present. -/
theorem C5_selector_priority (fs : FS) :
    (hasChunkedDatabase fs.chunks = true →
      detectDatabaseType fs = .ok ⟨.chunksDir, .maxmind, true⟩) ∧
    (hasChunkedDatabase fs.chunks = false → fs.countryMmdb.isSome = true →
      detectDatabaseType fs = .ok ⟨.countryMmdb, .ipinfo, false⟩) ∧
    (hasChunkedDatabase fs.chunks = false → fs.countryMmdb.isSome = false →
      fs.ipinfoLiteMmdb.isSome = true →
      detectDatabaseType fs = .ok ⟨.ipinfoLiteMmdb, .ipinfo, false⟩) ∧
    (hasChunkedDatabase fs.chunks = false → fs.countryMmdb.isSome = false →
      fs.ipinfoLiteMmdb.isSome = false → fs.geoLite2CityMmdb.isSome = true →
      detectDatabaseType fs = .ok ⟨.geoLite2CityMmdb, .maxmind, false⟩) ∧
    (hasChunkedDatabase fs.chunks = false → fs.countryMmdb.isSome = false →
      fs.ipinfoLiteMmdb.isSome = false → fs.geoLite2CityMmdb.isSome = false →
      detectDatabaseType fs =
        .error "No GeoIP database found. Please add country.mmdb, ipinfo_lite.mmdb, or GeoLite2-City.mmdb to lib/maxmind-db/") := by
  refine ⟨fun h1 => ?_, fun h1 h2 => ?_, fun h1 h2 h3 => ?_,
    fun h1 h2 h3 h4 => ?_, fun h1 h2 h3 h4 => ?_⟩ <;>
    simp [detectDatabaseType, *]

/-- Concrete filesystems for the selector witnesses. -/
def wFSboth : FS := ⟨wDir, some [9], none, none⟩

def wFScountry : FS := ⟨⟨none, fun _ => none⟩, some [9], none, none⟩

def wFSlite : FS := ⟨⟨none, fun _ => none⟩, none, some [8], none⟩

def wFScity : FS := ⟨⟨none, fun _ => none⟩, none, none, some [7]⟩

def wFSempty : FS := ⟨⟨none, fun _ => none⟩, none, none, none⟩

/-- Witness for C5, including the scenario where both the chunked
directory and `country.mmdb` are present and the chunked directory
wins. -/
theorem C5_selector_priority_witness :
    detectDatabaseType wFSboth = .ok ⟨.chunksDir, .maxmind, true⟩ ∧
    detectDatabaseType wFScountry = .ok ⟨.countryMmdb, .ipinfo, false⟩ ∧
    detectDatabaseType wFSlite = .ok ⟨.ipinfoLiteMmdb, .ipinfo, false⟩ ∧
    detectDatabaseType wFScity = .ok ⟨.geoLite2CityMmdb, .maxmind, false⟩ ∧
    detectDatabaseType wFSempty =
      .error "No GeoIP database found. Please add country.mmdb, ipinfo_lite.mmdb, or GeoLite2-City.mmdb to lib/maxmind-db/" :=
  ⟨(C5_selector_priority wFSboth).1 rfl,
   (C5_selector_priority wFScountry).2.1 rfl rfl,
   (C5_selector_priority wFSlite).2.2.1 rfl rfl rfl,
   (C5_selector_priority wFScity).2.2.2.1 rfl rfl rfl rfl,
   (C5_selector_priority wFSempty).2.2.2.2 rfl rfl rfl rfl⟩

/-! ### Initializer frame lemmas -/

/-- The asynchronous initializer never touches the lookup cache or the
query counter. -/
theorem initGeoIPReaderAsync_frame (env : Env) (st : GeoState) :
    ((initGeoIPReaderAsync env st).2).ipCountryCache = st.ipCountryCache ∧
    ((initGeoIPReaderAsync env st).2).queries = st.queries := by
  unfold initGeoIPReaderAsync
  split
  · exact ⟨rfl, rfl⟩
  · split
    · exact ⟨rfl, rfl⟩
    · split
      · split <;> exact ⟨rfl, rfl⟩
      · split <;> exact ⟨rfl, rfl⟩

/-- The synchronous initializer never touches the lookup cache or the
query counter. -/
theorem initGeoIPReader_frame (env : Env) (st : GeoState) :
    ((initGeoIPReader env st).2).ipCountryCache = st.ipCountryCache ∧
    ((initGeoIPReader env st).2).queries = st.queries := by
  unfold initGeoIPReader
  split
  · exact ⟨rfl, rfl⟩
  · split
    · exact ⟨rfl, rfl⟩
    · split
      · split <;> exact ⟨rfl, rfl⟩
      · split <;> exact ⟨rfl, rfl⟩

/-- A successful asynchronous initialization installs the returned
reader in the module state. -/
theorem initGeoIPReaderAsync_ok_sets (env : Env) (st st1 : GeoState)
    (r : Reader) (h : initGeoIPReaderAsync env st = (.ok r, st1)) :
    st1.geoIPReader = some r := by
  unfold initGeoIPReaderAsync at h
  split at h
  next r0 heq =>
    simp only [Prod.mk.injEq, Except.ok.injEq] at h
    obtain ⟨rfl, rfl⟩ := h
    exact heq
  next heq =>
    split at h
    · simp at h
    · split at h
      · split at h
        · simp at h
        · simp only [Prod.mk.injEq, Except.ok.injEq] at h
          obtain ⟨rfl, rfl⟩ := h
          rfl
      · split at h
        · simp at h
        · simp only [Prod.mk.injEq, Except.ok.injEq] at h
          obtain ⟨rfl, rfl⟩ := h
          rfl

/-- A successful synchronous initialization installs the returned
reader in the module state. -/
theorem initGeoIPReader_ok_sets (env : Env) (st st1 : GeoState)
    (r : Reader) (h : initGeoIPReader env st = (.ok r, st1)) :
    st1.geoIPReader = some r := by
  unfold initGeoIPReader at h
  split at h
  next r0 heq =>
    simp only [Prod.mk.injEq, Except.ok.injEq] at h
    obtain ⟨rfl, rfl⟩ := h
    exact heq
  next heq =>
    split at h
    · simp at h
    · split at h
      · split at h
        next r0 heq2 => simp at heq2
        next => simp at h
      · split at h
        · simp at h
        · simp only [Prod.mk.injEq, Except.ok.injEq] at h
          obtain ⟨rfl, rfl⟩ := h
          rfl

/-! ### Claim C7 -/

/-- **C7**: when the selected database is chunked and the provider has
not yet been built, the blocking initializer fails immediately with the
not-preloaded error and the state — in particular the chunk-loader
cache — is completely untouched: nothing is decompressed synchronously
on the calling thread.  The blocking resolver consequently absorbs that
error into a `null` result, again leaving the state unchanged. -/
theorem C7_blocking_not_preloaded (env : Env) (st : GeoState) (ip : String)
    (choice : DBChoice)
    (hnone : st.geoIPReader = none)
    (hdet : detectDatabaseType env.fs = .ok choice)
    (hch : choice.chunked = true)
    (hip : ¬(ip = "" ∨ ip = "::"))
    (hmiss : mapHas st.ipCountryCache ip = false) :
    initGeoIPReader env st = (.error notPreloadedMsg, st) ∧
    getCountryCodeFromIP env st ip = (.ok none, st) := by
  have h1 : initGeoIPReader env st = (.error notPreloadedMsg, st) := by
    simp only [initGeoIPReader, hnone, hdet, hch, if_true]
  refine ⟨h1, ?_⟩
  simp only [getCountryCodeFromIP, if_neg hip, hmiss, h1]
  simp

/-- Witness data for the resolver claims: a filesystem holding only a
chunked database. -/
def wFSchunked : FS := ⟨wDir, none, none, none⟩

def wEnvChunked : Env :=
  ⟨wFSchunked, wGunzip, wAlloc, fun _ _ => .error "boom"⟩

/-- Witness for C7: against a chunked-only filesystem with nothing
preloaded, the blocking path errors without loading and the blocking
resolver returns `null` with the state unchanged. -/
theorem C7_blocking_not_preloaded_witness :
    initGeoIPReader wEnvChunked initialGeoState =
      (.error notPreloadedMsg, initialGeoState) ∧
    getCountryCodeFromIP wEnvChunked initialGeoState "8.8.8.8" =
      (.ok none, initialGeoState) :=
  C7_blocking_not_preloaded wEnvChunked initialGeoState "8.8.8.8"
    ⟨.chunksDir, .maxmind, true⟩ rfl rfl rfl (by decide) rfl

/-! ### Cache lemmas -/

theorem mapHas_eq_false_iff {m : IPCache} {k : String} :
    mapHas m k = false ↔ ∀ p ∈ m, p.1 ≠ k := by
  rw [mapHas, ← Bool.not_eq_true, List.any_eq_true]
  constructor
  · intro h p hp hk
    exact h ⟨p, hp, by simp [beq_iff_eq, hk]⟩
  · intro h hex
    obtain ⟨p, hp, hpk⟩ := hex
    exact h p hp (by simpa [beq_iff_eq] using hpk)

theorem mapHas_tail_false {p : String × Option String} {t : IPCache}
    {ip : String} (h : mapHas (p :: t) ip = false) : mapHas t ip = false := by
  rw [mapHas_eq_false_iff] at h ⊢
  exact fun q hq => h q (List.mem_cons_of_mem _ hq)

theorem mapSet_append {m : IPCache} {k : String} {v : Option String}
    (h : mapHas m k = false) : mapSet m k v = m ++ [(k, v)] := by
  unfold mapSet
  simp [h]

theorem mapHas_mapDelete_false {m : IPCache} {k ip : String}
    (h : mapHas m ip = false) : mapHas (mapDelete m k) ip = false := by
  rw [mapHas_eq_false_iff] at h ⊢
  exact fun q hq => h q (List.eraseP_subset m hq)

theorem mapSet_length_le (m : IPCache) (k : String) (v : Option String) :
    (mapSet m k v).length ≤ m.length + 1 := by
  unfold mapSet
  split
  · simp
  · simp

theorem mapSet_keys_ne {m : IPCache} {k : String} {v : Option String}
    (hm : ∀ p ∈ m, p.1 ≠ "") (hk : k ≠ "") :
    ∀ p ∈ mapSet m k v, p.1 ≠ "" := by
  unfold mapSet
  split
  · intro p hp
    obtain ⟨q, hq, rfl⟩ := List.mem_map.mp hp
    split
    · exact hk
    · exact hm q hq
  · intro p hp
    rcases List.mem_append.mp hp with h | h
    · exact hm p h
    · rw [List.mem_singleton] at h
      rw [h]
      exact hk

theorem mapHas_mapSet_true (m : IPCache) (k : String) (v : Option String) :
    mapHas (mapSet m k v) k = true := by
  unfold mapSet
  split
  next hhas =>
    rw [mapHas, List.any_eq_true] at hhas ⊢
    obtain ⟨p, hp, hpk⟩ := hhas
    exact ⟨(k, v), List.mem_map.mpr ⟨p, hp, by simp [hpk]⟩, by simp⟩
  next =>
    rw [mapHas, List.any_eq_true]
    exact ⟨(k, v), by simp, by simp⟩

theorem cacheEvict_of_lt {m : IPCache} (h : m.length < MAX_CACHE_SIZE) :
    cacheEvict m = m := by
  unfold cacheEvict
  rw [if_neg (by omega)]

theorem cacheEvict_cons_of_full {p : String × Option String} {t : IPCache}
    (hlen : MAX_CACHE_SIZE ≤ (p :: t).length) (hp : p.1 ≠ "") :
    cacheEvict (p :: t) = t := by
  unfold cacheEvict
  rw [if_pos hlen]
  show (if p.1 = "" then (p :: t) else mapDelete (p :: t) p.1) = t
  rw [if_neg hp]
  unfold mapDelete
  exact List.eraseP_cons_of_pos (by simp)

theorem mapHas_cacheEvict_false {m : IPCache} {ip : String}
    (h : mapHas m ip = false) : mapHas (cacheEvict m) ip = false := by
  unfold cacheEvict
  split
  · split
    · split
      · exact h
      · exact mapHas_mapDelete_false h
    · exact h
  · exact h

theorem mapGet_cacheInsert {m : IPCache} {ip : String} {v : Option String}
    (h : mapHas m ip = false) :
    mapGet (cacheInsert m ip v) ip = some v := by
  unfold cacheInsert
  rw [mapSet_append (mapHas_cacheEvict_false h)]
  unfold mapGet
  rw [List.find?_append, List.find?_eq_none.mpr (fun x hx => by
    have hne := mapHas_eq_false_iff.mp (mapHas_cacheEvict_false h) x hx
    simpa [beq_iff_eq] using hne)]
  simp

theorem mapHas_cacheInsert_true (m : IPCache) (ip : String)
    (v : Option String) : mapHas (cacheInsert m ip v) ip = true :=
  mapHas_mapSet_true _ ip v

theorem cacheInsert_cacheOK {m : IPCache} {ip : String} {v : Option String}
    (hok : cacheOK m) (hip : ip ≠ "") : cacheOK (cacheInsert m ip v) := by
  obtain ⟨hlen, hkeys⟩ := hok
  by_cases hfull : MAX_CACHE_SIZE ≤ m.length
  · cases m with
    | nil => exact absurd hfull (by decide)
    | cons p t =>
      have hevict : cacheEvict (p :: t) = t :=
        cacheEvict_cons_of_full hfull (hkeys p (List.mem_cons_self p t))
      unfold cacheInsert
      rw [hevict]
      refine ⟨?_, mapSet_keys_ne
        (fun q hq => hkeys q (List.mem_cons_of_mem _ hq)) hip⟩
      have h1 := mapSet_length_le t ip v
      have h2 : (p :: t).length = t.length + 1 := List.length_cons p t
      omega
  · unfold cacheInsert
    rw [cacheEvict_of_lt (by omega)]
    refine ⟨?_, mapSet_keys_ne hkeys hip⟩
    have h1 := mapSet_length_le m ip v
    omega

/-- Inserting a fresh key into a full cache of real keys removes exactly
the oldest-inserted entry and appends the new one. -/
theorem cacheInsert_full {m : IPCache} {ip : String} {v : Option String}
    (hlen : m.length = MAX_CACHE_SIZE)
    (hkeys : ∀ p ∈ m, p.1 ≠ "")
    (hmiss : mapHas m ip = false) :
    cacheInsert m ip v = m.tail ++ [(ip, v)] := by
  cases m with
  | nil => exact absurd hlen (by decide)
  | cons p t =>
    have hevict : cacheEvict (p :: t) = t :=
      cacheEvict_cons_of_full (by omega) (hkeys p (List.mem_cons_self p t))
    unfold cacheInsert
    rw [hevict, mapSet_append (mapHas_tail_false hmiss)]
    rfl

/-- Filling a cache with fresh distinct keys below capacity appends them
in order, with no eviction. -/
theorem insertAll_fresh :
    ∀ (ks : List String) (m : IPCache), ks.Nodup →
      (∀ k ∈ ks, k ≠ "" ∧ mapHas m k = false) →
      m.length + ks.length ≤ MAX_CACHE_SIZE →
      insertAll m ks = m ++ ks.map (fun k => (k, (none : Option String))) := by
  intro ks
  induction ks with
  | nil => intro m _ _ _; simp [insertAll]
  | cons k ks ih =>
    intro m hnd hfresh hlen
    have hk := hfresh k (List.mem_cons_self k ks)
    have hstep : cacheInsert m k none = m ++ [(k, none)] := by
      unfold cacheInsert
      rw [cacheEvict_of_lt (by simp at hlen; omega), mapSet_append hk.2]
    have hrec : insertAll (m ++ [(k, none)]) ks =
        (m ++ [(k, none)]) ++ ks.map (fun k => (k, (none : Option String))) := by
      apply ih
      · exact (List.nodup_cons.mp hnd).2
      · intro k2 hk2
        refine ⟨(hfresh k2 (List.mem_cons_of_mem _ hk2)).1, ?_⟩
        rw [mapHas_eq_false_iff]
        intro q hq
        rcases List.mem_append.mp hq with hq1 | hq2
        · exact mapHas_eq_false_iff.mp
            (hfresh k2 (List.mem_cons_of_mem _ hk2)).2 q hq1
        · rw [List.mem_singleton] at hq2
          rw [hq2]
          show k ≠ k2
          intro hcontra
          subst hcontra
          exact (List.nodup_cons.mp hnd).1 hk2
      · simp only [List.length_append, List.length_singleton,
          List.length_cons, List.length_nil] at hlen ⊢
        omega
    calc insertAll m (k :: ks) = insertAll (cacheInsert m k none) ks := rfl
      _ = insertAll (m ++ [(k, none)]) ks := by rw [hstep]
      _ = (m ++ [(k, none)]) ++ ks.map (fun k => (k, (none : Option String))) :=
          hrec
      _ = m ++ (k :: ks).map (fun k => (k, (none : Option String))) := by
          simp [List.append_assoc]

/-- A lookup whose key is cached returns the cached value and leaves the
entire state — cache order and query counter included — unchanged. -/
theorem lookupAsync_hit (env : Env) (st : GeoState) (ip : String)
    (hip : ¬(ip = "" ∨ ip = "::"))
    (h : mapHas st.ipCountryCache ip = true) :
    getCountryCodeFromIPAsync env st ip =
      (.ok (cacheValue st.ipCountryCache ip), st) := by
  unfold getCountryCodeFromIPAsync
  rw [if_neg hip, if_pos h]

/-- One asynchronous lookup preserves the reachable-cache invariant. -/
theorem getCountryCodeFromIPAsync_cacheOK (env : Env) (st : GeoState)
    (ip : String) (h : cacheOK st.ipCountryCache) :
    cacheOK ((getCountryCodeFromIPAsync env st ip).2).ipCountryCache := by
  unfold getCountryCodeFromIPAsync
  split
  · exact h
  next hg =>
    split
    · exact h
    next hh =>
      split
      next e st1 heq =>
        have hframe := (initGeoIPReaderAsync_frame env st).1
        rw [heq] at hframe
        have hc1 : st1.ipCountryCache = st.ipCountryCache := hframe
        simpa [hc1] using h
      next reader st1 heq =>
        have hframe := (initGeoIPReaderAsync_frame env st).1
        rw [heq] at hframe
        have hc1 : st1.ipCountryCache = st.ipCountryCache := hframe
        split
        · simpa [hc1] using h
        next result hget =>
          refine cacheInsert_cacheOK ?_ ?_
          · simpa [hc1] using h
          · intro he
            exact hg (Or.inl he)

/-- One synchronous lookup preserves the reachable-cache invariant. -/
theorem getCountryCodeFromIP_cacheOK (env : Env) (st : GeoState)
    (ip : String) (h : cacheOK st.ipCountryCache) :
    cacheOK ((getCountryCodeFromIP env st ip).2).ipCountryCache := by
  unfold getCountryCodeFromIP
  split
  · exact h
  next hg =>
    split
    · exact h
    next hh =>
      split
      next e st1 heq =>
        have hframe := (initGeoIPReader_frame env st).1
        rw [heq] at hframe
        have hc1 : st1.ipCountryCache = st.ipCountryCache := hframe
        simpa [hc1] using h
      next reader st1 heq =>
        have hframe := (initGeoIPReader_frame env st).1
        rw [heq] at hframe
        have hc1 : st1.ipCountryCache = st.ipCountryCache := hframe
        split
        · simpa [hc1] using h
        next result hget =>
          refine cacheInsert_cacheOK ?_ ?_
          · simpa [hc1] using h
          · intro he
            exact hg (Or.inl he)

/-- One resolver call preserves the reachable-cache invariant. -/
theorem runOp_cacheOK (env : Env) (st : GeoState) (op : ResolverOp)
    (h : cacheOK st.ipCountryCache) :
    cacheOK ((runOp env st op).ipCountryCache) := by
  cases op with
  | asyncOp ip => exact getCountryCodeFromIPAsync_cacheOK env st ip h
  | syncOp ip => exact getCountryCodeFromIP_cacheOK env st ip h

/-- Any sequence of resolver calls preserves the reachable-cache
invariant. -/
theorem runOps_cacheOK (env : Env) (ops : List ResolverOp) :
    ∀ st : GeoState, cacheOK st.ipCountryCache →
      cacheOK ((runOps env st ops).ipCountryCache) := by
  induction ops with
  | nil => intro st h; exact h
  | cons op ops ih => intro st h; exact ih _ (runOp_cacheOK env st op h)

/-! ### Claim C3 -/

/-- **C3**: (i) every sequence of resolver operations from the initial
state keeps the cache at or below 10,000 entries; (ii) an insertion into
a full cache of real keys removes exactly the single oldest-inserted
currently-held key before the new entry is appended; (iii) after
capacity + 1 distinct insertions exactly the first-inserted key has been
evicted and the remaining keys are all still held, in insertion order
(hence retrievable); (iv) a lookup of a cached key returns the cached
value without touching the cache — reads never refresh an entry's
position. -/
theorem C3_cache_capacity_fifo :
    (∀ (env : Env) (ops : List ResolverOp),
      ((runOps env initialGeoState ops).ipCountryCache).length ≤
        MAX_CACHE_SIZE) ∧
    (∀ (m : IPCache) (ip : String) (v : Option String),
      m.length = MAX_CACHE_SIZE → (∀ p ∈ m, p.1 ≠ "") →
      mapHas m ip = false →
      cacheInsert m ip v = m.tail ++ [(ip, v)]) ∧
    (∀ ks : List String, ks.Nodup → (∀ k ∈ ks, k ≠ "") →
      ks.length = MAX_CACHE_SIZE + 1 →
      (insertAll [] ks).map Prod.fst = ks.drop 1) ∧
    (∀ (env : Env) (st : GeoState) (ip : String), ¬(ip = "" ∨ ip = "::") →
      mapHas st.ipCountryCache ip = true →
      getCountryCodeFromIPAsync env st ip =
        (.ok (cacheValue st.ipCountryCache ip), st)) := by
  refine ⟨?_, ?_, ?_, ?_⟩
  · intro env ops
    exact (runOps_cacheOK env ops initialGeoState
      ⟨by decide, by simp [initialGeoState]⟩).1
  · intro m ip v hlen hkeys hmiss
    exact cacheInsert_full hlen hkeys hmiss
  · intro ks hnd hne hlen
    obtain ⟨k0, rest, rfl⟩ : ∃ k0 rest, ks = k0 :: rest := by
      cases ks with
      | nil => exact absurd hlen (by decide)
      | cons a b => exact ⟨a, b, rfl⟩
    have hrlen : rest.length = MAX_CACHE_SIZE := by
      simp only [List.length_cons] at hlen; omega
    have hrne : rest ≠ [] := by
      intro hnil
      rw [hnil] at hrlen
      exact absurd hrlen.symm (by decide)
    obtain ⟨hk0rest, hndrest⟩ := List.nodup_cons.mp hnd
    have hsplit := List.dropLast_append_getLast hrne
    have hrpos : 0 < rest.length := List.length_pos.mpr hrne
    have hfrontlen : (k0 :: rest.dropLast).length = MAX_CACHE_SIZE := by
      simp only [List.length_cons, List.length_dropLast]
      omega
    have hfold : insertAll [] (k0 :: rest) =
        cacheInsert (insertAll [] (k0 :: rest.dropLast))
          (rest.getLast hrne) none := by
      conv_lhs => rw [← hsplit]
      rw [show k0 :: (rest.dropLast ++ [rest.getLast hrne]) =
        (k0 :: rest.dropLast) ++ [rest.getLast hrne] from rfl]
      unfold insertAll
      rw [List.foldl_append]
      rfl
    have hfront : insertAll [] (k0 :: rest.dropLast) =
        (k0 :: rest.dropLast).map (fun k => (k, (none : Option String))) := by
      have hres := insertAll_fresh (k0 :: rest.dropLast) []
        (by
          rw [List.nodup_cons]
          exact ⟨fun hmem => hk0rest ((List.dropLast_sublist rest).subset hmem),
            hndrest.sublist (List.dropLast_sublist rest)⟩)
        (by
          intro k hk
          refine ⟨?_, rfl⟩
          rcases List.mem_cons.mp hk with rfl | hk2
          · exact hne k (List.mem_cons_self k rest)
          · exact hne k (List.mem_cons_of_mem _
              ((List.dropLast_sublist rest).subset hk2)))
        (by
          simp only [List.length_nil, Nat.zero_add]
          omega)
      simpa using hres
    have hwmem : rest.getLast hrne ∈ rest := List.getLast_mem hrne
    have hkeysfront : ∀ p ∈ (k0 :: rest.dropLast).map
        (fun k => (k, (none : Option String))), p.1 ≠ "" := by
      intro p hp
      obtain ⟨k, hk, rfl⟩ := List.mem_map.mp hp
      rcases List.mem_cons.mp hk with rfl | hk2
      · exact hne k (List.mem_cons_self k rest)
      · exact hne k (List.mem_cons_of_mem _
          ((List.dropLast_sublist rest).subset hk2))
    have hwfresh : mapHas ((k0 :: rest.dropLast).map
        (fun k => (k, (none : Option String)))) (rest.getLast hrne) = false := by
      rw [mapHas_eq_false_iff]
      intro p hp
      obtain ⟨k, hk, rfl⟩ := List.mem_map.mp hp
      show k ≠ rest.getLast hrne
      rcases List.mem_cons.mp hk with rfl | hk2
      · exact fun he => hk0rest (he ▸ hwmem)
      · intro he
        have hnd2 : (rest.dropLast ++ [rest.getLast hrne]).Nodup := by
          rw [hsplit]; exact hndrest
        have hdisj := (List.nodup_append.mp hnd2).2.2
        exact absurd (List.mem_singleton.mpr rfl) (hdisj (he ▸ hk2))
    rw [hfold, hfront,
      cacheInsert_full (by rw [List.length_map]; exact hfrontlen)
        hkeysfront hwfresh]
    simp only [List.map_cons, List.map_nil, List.tail_cons, List.map_append,
      List.map_map]
    rw [show (Prod.fst ∘ fun k => (k, (none : Option String))) = id from rfl,
      List.map_id]
    exact hsplit
  · intro env st ip hip hh
    exact lookupAsync_hit env st ip hip hh

/-- Injection building many distinct nonempty keys. -/
def wKey (n : Nat) : String := String.mk (List.replicate (n + 1) 'a')

theorem wKey_ne_empty (n : Nat) : wKey n ≠ "" := by
  intro h
  have h2 : List.replicate (n + 1) 'a' = ([] : List Char) :=
    congrArg String.data h
  rw [List.replicate_succ] at h2
  exact List.cons_ne_nil _ _ h2

theorem wKey_ne_b (n : Nat) : wKey n ≠ "b" := by
  intro h
  have h2 : List.replicate (n + 1) 'a' = (['b'] : List Char) :=
    congrArg String.data h
  have h3 := congrArg List.length h2
  simp only [List.length_replicate, List.length_cons, List.length_nil] at h3
  have h4 : n = 0 := by omega
  subst h4
  exact absurd h2 (by decide)

theorem wKey_injective : Function.Injective wKey := by
  intro a b h
  have h2 : List.replicate (a + 1) 'a' = List.replicate (b + 1) 'a' :=
    congrArg String.data h
  have h3 := congrArg List.length h2
  simp only [List.length_replicate] at h3
  omega

/-- A concrete cache holding exactly `MAX_CACHE_SIZE` distinct nonempty
keys. -/
def wFullCache : IPCache :=
  (List.range MAX_CACHE_SIZE).map (fun n => (wKey n, (none : Option String)))

/-- `MAX_CACHE_SIZE + 1` distinct nonempty keys. -/
def wKeys : List String := (List.range (MAX_CACHE_SIZE + 1)).map wKey

/-- A state with one cached entry. -/
def wCachedState : GeoState :=
  { initialGeoState with ipCountryCache := [("1.2.3.4", some "US")] }

/-- Witness for C3: a one-call run stays within capacity; inserting a
fresh key into a concrete full cache drops exactly its oldest entry;
10,001 distinct insertions leave exactly the last 10,000 keys; and a
cached read leaves the state unchanged. -/
theorem C3_cache_capacity_fifo_witness :
    ((runOps wEnvChunked initialGeoState
        [.asyncOp "8.8.8.8"]).ipCountryCache).length ≤ MAX_CACHE_SIZE ∧
    cacheInsert wFullCache "b" none = wFullCache.tail ++ [("b", none)] ∧
    (insertAll [] wKeys).map Prod.fst = wKeys.drop 1 ∧
    getCountryCodeFromIPAsync wEnvChunked wCachedState "1.2.3.4" =
      (.ok (cacheValue wCachedState.ipCountryCache "1.2.3.4"), wCachedState) :=
  ⟨C3_cache_capacity_fifo.1 wEnvChunked [.asyncOp "8.8.8.8"],
   C3_cache_capacity_fifo.2.1 wFullCache "b" none
     (by simp [wFullCache, List.length_map, List.length_range])
     (by
       intro p hp
       simp only [wFullCache, List.mem_map, List.mem_range] at hp
       obtain ⟨n, _, rfl⟩ := hp
       exact wKey_ne_empty n)
     (by
       rw [mapHas_eq_false_iff]
       intro p hp
       simp only [wFullCache, List.mem_map, List.mem_range] at hp
       obtain ⟨n, _, rfl⟩ := hp
       exact wKey_ne_b n),
   C3_cache_capacity_fifo.2.2.1 wKeys
     (List.Nodup.map wKey_injective (List.nodup_range _))
     (by
       intro k hk
       simp only [wKeys, List.mem_map, List.mem_range] at hk
       obtain ⟨n, _, rfl⟩ := hk
       exact wKey_ne_empty n)
     (by simp [wKeys, List.length_map, List.length_range]),
   C3_cache_capacity_fifo.2.2.2 wEnvChunked wCachedState "1.2.3.4"
     (by decide) rfl⟩

/-! ### Claim C6 -/

theorem jsOrNull_idem (x : Option String) :
    jsOrNull (jsOrNull x) = jsOrNull x := by
  cases x with
  | none => rfl
  | some s =>
    by_cases h : s = ""
    · simp [jsOrNull, h]
    · simp [jsOrNull, h]

theorem jsOrNull_ne_empty {x : Option String} {s : String}
    (h : jsOrNull x = some s) : s ≠ "" := by
  cases x with
  | none => simp [jsOrNull] at h
  | some s2 =>
    by_cases h2 : s2 = ""
    · simp [jsOrNull, h2] at h
    · simp only [jsOrNull, if_neg h2, Option.some.injEq] at h
      subst h
      exact h2

/-- Extraction never produces `some ""`, so reading an extracted value
back through the JavaScript `|| null` is the identity. -/
theorem jsOrNull_extract (t : DBType) (r : Option RawRecord) :
    jsOrNull (extractCountryCode t r) = extractCountryCode t r := by
  cases r with
  | none => rfl
  | some rr =>
    cases t with
    | ipinfo =>
      cases rr with
      | ipinfo c => exact jsOrNull_idem c
      | maxmind c rc => rfl
    | maxmind =>
      cases rr with
      | ipinfo c => rfl
      | maxmind c rc =>
        simp only [extractCountryCode]
        rcases hx : jsOrNull (c.bind CountryRecord.iso_code) with _ | s
        · exact jsOrNull_idem _
        · simp [jsOrNull, jsOrNull_ne_empty hx]

/-- The value just inserted is read back unchanged. -/
theorem cacheValue_cacheInsert {m : IPCache} {ip : String} {t : DBType}
    {r : Option RawRecord} (h : mapHas m ip = false) :
    cacheValue (cacheInsert m ip (extractCountryCode t r)) ip =
      extractCountryCode t r := by
  unfold cacheValue
  rw [mapGet_cacheInsert h]
  simp only [Option.getD_some]
  exact jsOrNull_extract t r

/-- **C6**: a lookup of a key already in the cache — including a cached
"not found" `null` — returns the cached value with no state change, so
the provider is not queried; consequently, across two successive lookups
of the same IP where the first is a miss that completes without error,
the provider is queried exactly once: the first call queries once and
caches, the second returns the same value from the cache with the state
(query counter included) unchanged. -/
theorem C6_lookup_memoized (env : Env) (ip : String)
    (hip : ¬(ip = "" ∨ ip = "::")) :
    (∀ st : GeoState, mapHas st.ipCountryCache ip = true →
      getCountryCodeFromIPAsync env st ip =
        (.ok (cacheValue st.ipCountryCache ip), st)) ∧
    (∀ (st st1 : GeoState) (r : Reader) (res : Option RawRecord),
      mapHas st.ipCountryCache ip = false →
      initGeoIPReaderAsync env st = (.ok r, st1) →
      env.readerGet r ip = .ok res →
      ∃ (v : Option String) (st2 : GeoState),
        getCountryCodeFromIPAsync env st ip = (.ok v, st2) ∧
        st2.queries = st.queries + 1 ∧
        mapHas st2.ipCountryCache ip = true ∧
        getCountryCodeFromIPAsync env st2 ip = (.ok v, st2)) := by
  constructor
  · intro st hh
    exact lookupAsync_hit env st ip hip hh
  · intro st st1 r res hmiss hinit hget
    have hframe := initGeoIPReaderAsync_frame env st
    rw [hinit] at hframe
    have hc1 : st1.ipCountryCache = st.ipCountryCache := hframe.1
    have hq1 : st1.queries = st.queries := hframe.2
    have hmiss1 : mapHas st1.ipCountryCache ip = false := by
      rw [hc1]; exact hmiss
    refine ⟨extractCountryCode st1.databaseType res,
      ({ st1 with
          queries := st1.queries + 1,
          ipCountryCache := cacheInsert st1.ipCountryCache ip
            (extractCountryCode st1.databaseType res) } : GeoState),
      ?_, ?_, ?_, ?_⟩
    · unfold getCountryCodeFromIPAsync
      rw [if_neg hip, if_neg (by rw [hmiss]; simp)]
      simp only [hinit, hget]
    · simp [hq1]
    · exact mapHas_cacheInsert_true _ _ _
    · have hv : cacheValue (cacheInsert st1.ipCountryCache ip
          (extractCountryCode st1.databaseType res)) ip =
          extractCountryCode st1.databaseType res :=
        cacheValue_cacheInsert hmiss1
      rw [lookupAsync_hit env _ ip hip (mapHas_cacheInsert_true _ _ _)]
      dsimp only
      rw [hv]

/-- A state in which the monolithic `country.mmdb` database has been
opened. -/
def wStCountryInit : GeoState :=
  { initialGeoState with geoIPReader := some ⟨[9]⟩, databaseType := .ipinfo }

/-- Environment with only `country.mmdb`, whose provider knows
`8.8.8.8`, answers "no match" for `203.0.113.1` and throws on anything
else. -/
def wEnvCountry : Env :=
  ⟨wFScountry, wGunzip, wAlloc, fun _ s =>
    if s = "203.0.113.1" then .ok none
    else if s = "8.8.8.8" then .ok (some (.ipinfo (some "US")))
    else .error "boom"⟩

/-- Witness for C6 at the spec's own example: `203.0.113.1` resolves to
"not found", is cached as `null`, and the second lookup returns the
cached `null` without a second provider query. -/
theorem C6_lookup_memoized_witness :
    getCountryCodeFromIPAsync wEnvCountry wCachedState "1.2.3.4" =
      (.ok (cacheValue wCachedState.ipCountryCache "1.2.3.4"),
       wCachedState) ∧
    (∃ (v : Option String) (st2 : GeoState),
      getCountryCodeFromIPAsync wEnvCountry initialGeoState "203.0.113.1" =
        (.ok v, st2) ∧
      st2.queries = initialGeoState.queries + 1 ∧
      mapHas st2.ipCountryCache "203.0.113.1" = true ∧
      getCountryCodeFromIPAsync wEnvCountry st2 "203.0.113.1" =
        (.ok v, st2)) :=
  ⟨(C6_lookup_memoized wEnvCountry "1.2.3.4" (by decide)).1 wCachedState rfl,
   (C6_lookup_memoized wEnvCountry "203.0.113.1" (by decide)).2
     initialGeoState wStCountryInit ⟨[9]⟩ none rfl rfl rfl⟩

/-! ### Claim C8 -/

/-- **C8**: neither resolver ever propagates an exception — every call
returns an `ok` value together with a successor state — and when
initialization or the provider lookup fails inside the `try` block, the
caught error surfaces specifically as the `null` ("no country") result;
the initialization-error and provider-error cases are each proved for
both the asynchronous and the blocking resolver. -/
theorem C8_lookup_never_throws (env : Env) (st : GeoState) (ip : String) :
    (∃ (v : Option String) (st2 : GeoState),
      getCountryCodeFromIPAsync env st ip = (.ok v, st2)) ∧
    (∃ (v : Option String) (st2 : GeoState),
      getCountryCodeFromIP env st ip = (.ok v, st2)) ∧
    (∀ (e : String) (st1 : GeoState), ¬(ip = "" ∨ ip = "::") →
      mapHas st.ipCountryCache ip = false →
      initGeoIPReaderAsync env st = (.error e, st1) →
      getCountryCodeFromIPAsync env st ip = (.ok none, st1)) ∧
    (∀ (r : Reader) (st1 : GeoState) (e : String), ¬(ip = "" ∨ ip = "::") →
      mapHas st.ipCountryCache ip = false →
      initGeoIPReaderAsync env st = (.ok r, st1) →
      env.readerGet r ip = .error e →
      getCountryCodeFromIPAsync env st ip =
        (.ok none, { st1 with queries := st1.queries + 1 })) ∧
    (∀ (e : String) (st1 : GeoState), ¬(ip = "" ∨ ip = "::") →
      mapHas st.ipCountryCache ip = false →
      initGeoIPReader env st = (.error e, st1) →
      getCountryCodeFromIP env st ip = (.ok none, st1)) ∧
    (∀ (r : Reader) (st1 : GeoState) (e : String), ¬(ip = "" ∨ ip = "::") →
      mapHas st.ipCountryCache ip = false →
      initGeoIPReader env st = (.ok r, st1) →
      env.readerGet r ip = .error e →
      getCountryCodeFromIP env st ip =
        (.ok none, { st1 with queries := st1.queries + 1 })) := by
  refine ⟨?_, ?_, ?_, ?_, ?_, ?_⟩
  · unfold getCountryCodeFromIPAsync
    split
    · exact ⟨_, _, rfl⟩
    · split
      · exact ⟨_, _, rfl⟩
      · split
        · exact ⟨_, _, rfl⟩
        · split
          · exact ⟨_, _, rfl⟩
          · exact ⟨_, _, rfl⟩
  · unfold getCountryCodeFromIP
    split
    · exact ⟨_, _, rfl⟩
    · split
      · exact ⟨_, _, rfl⟩
      · split
        · exact ⟨_, _, rfl⟩
        · split
          · exact ⟨_, _, rfl⟩
          · exact ⟨_, _, rfl⟩
  · intro e st1 hip hmiss hinit
    unfold getCountryCodeFromIPAsync
    rw [if_neg hip, if_neg (by rw [hmiss]; simp)]
    simp only [hinit]
  · intro r st1 e hip hmiss hinit hget
    unfold getCountryCodeFromIPAsync
    rw [if_neg hip, if_neg (by rw [hmiss]; simp)]
    simp only [hinit, hget]
  · intro e st1 hip hmiss hinit
    unfold getCountryCodeFromIP
    rw [if_neg hip, if_neg (by rw [hmiss]; simp)]
    simp only [hinit]
  · intro r st1 e hip hmiss hinit hget
    unfold getCountryCodeFromIP
    rw [if_neg hip, if_neg (by rw [hmiss]; simp)]
    simp only [hinit, hget]

/-- Environment with no database at all: initialization always fails. -/
def wEnvEmpty : Env := ⟨wFSempty, wGunzip, wAlloc, fun _ _ => .error "boom"⟩

/-- Witness for C8: with no database both resolvers return `null`
(initialization error absorbed), and a provider that throws for
`9.9.9.9` is absorbed into `null` on both the asynchronous and the
blocking path. -/
theorem C8_lookup_never_throws_witness :
    getCountryCodeFromIPAsync wEnvEmpty initialGeoState "8.8.8.8" =
      (.ok none, initialGeoState) ∧
    getCountryCodeFromIPAsync wEnvCountry initialGeoState "9.9.9.9" =
      (.ok none, { wStCountryInit with
        queries := wStCountryInit.queries + 1 }) ∧
    getCountryCodeFromIP wEnvEmpty initialGeoState "8.8.8.8" =
      (.ok none, initialGeoState) ∧
    getCountryCodeFromIP wEnvCountry initialGeoState "9.9.9.9" =
      (.ok none, { wStCountryInit with
        queries := wStCountryInit.queries + 1 }) :=
  ⟨(C8_lookup_never_throws wEnvEmpty initialGeoState "8.8.8.8").2.2.1 _ _
     (by decide) rfl rfl,
   (C8_lookup_never_throws wEnvCountry initialGeoState "9.9.9.9").2.2.2.1
     ⟨[9]⟩ wStCountryInit "boom" (by decide) rfl rfl rfl,
   (C8_lookup_never_throws wEnvEmpty initialGeoState "8.8.8.8").2.2.2.2.1 _ _
     (by decide) rfl rfl,
   (C8_lookup_never_throws wEnvCountry initialGeoState "9.9.9.9").2.2.2.2.2
     ⟨[9]⟩ wStCountryInit "boom" (by decide) rfl rfl rfl⟩

/-! ### Claim C10 -/

/-- **C10**: when a lookup fails with an initialization or provider
error, the resolver returns `null` without inserting anything into the
cache — the cache is unchanged and the key remains absent — so, unlike a
cached "not found", an errored IP is re-attempted against the provider
on the next lookup (the query counter advances again on the retried
call).  Covered for both resolvers: initialization errors on the
asynchronous and blocking paths, and provider errors on the
asynchronous and blocking paths. -/
theorem C10_error_not_cached (ip : String) (hip : ¬(ip = "" ∨ ip = "::")) :
    (∀ (env : Env) (st st1 : GeoState) (e : String),
      mapHas st.ipCountryCache ip = false →
      initGeoIPReaderAsync env st = (.error e, st1) →
      getCountryCodeFromIPAsync env st ip = (.ok none, st1) ∧
      st1.ipCountryCache = st.ipCountryCache ∧
      mapHas st1.ipCountryCache ip = false) ∧
    (∀ (env : Env) (st st1 : GeoState) (r : Reader) (e : String),
      mapHas st.ipCountryCache ip = false →
      initGeoIPReaderAsync env st = (.ok r, st1) →
      env.readerGet r ip = .error e →
      getCountryCodeFromIPAsync env st ip =
        (.ok none, { st1 with queries := st1.queries + 1 }) ∧
      st1.ipCountryCache = st.ipCountryCache ∧
      ((getCountryCodeFromIPAsync env
          { st1 with queries := st1.queries + 1 } ip).2).queries =
        st1.queries + 2) ∧
    (∀ (env : Env) (st st1 : GeoState) (e : String),
      mapHas st.ipCountryCache ip = false →
      initGeoIPReader env st = (.error e, st1) →
      getCountryCodeFromIP env st ip = (.ok none, st1) ∧
      st1.ipCountryCache = st.ipCountryCache) ∧
    (∀ (env : Env) (st st1 : GeoState) (r : Reader) (e : String),
      mapHas st.ipCountryCache ip = false →
      initGeoIPReader env st = (.ok r, st1) →
      env.readerGet r ip = .error e →
      getCountryCodeFromIP env st ip =
        (.ok none, { st1 with queries := st1.queries + 1 }) ∧
      st1.ipCountryCache = st.ipCountryCache ∧
      ((getCountryCodeFromIP env
          { st1 with queries := st1.queries + 1 } ip).2).queries =
        st1.queries + 2) := by
  refine ⟨?_, ?_, ?_, ?_⟩
  · intro env st st1 e hmiss hinit
    have hframe := initGeoIPReaderAsync_frame env st
    rw [hinit] at hframe
    have hc1 : st1.ipCountryCache = st.ipCountryCache := hframe.1
    refine ⟨?_, hc1, by rw [hc1]; exact hmiss⟩
    unfold getCountryCodeFromIPAsync
    rw [if_neg hip, if_neg (by rw [hmiss]; simp)]
    simp only [hinit]
  · intro env st st1 r e hmiss hinit hget
    have hframe := initGeoIPReaderAsync_frame env st
    rw [hinit] at hframe
    have hc1 : st1.ipCountryCache = st.ipCountryCache := hframe.1
    have hsets : st1.geoIPReader = some r :=
      initGeoIPReaderAsync_ok_sets env st st1 r hinit
    refine ⟨?_, hc1, ?_⟩
    · unfold getCountryCodeFromIPAsync
      rw [if_neg hip, if_neg (by rw [hmiss]; simp)]
      simp only [hinit, hget]
    · have hinit2 : initGeoIPReaderAsync env
          { st1 with queries := st1.queries + 1 } =
          (.ok r, { st1 with queries := st1.queries + 1 }) := by
        unfold initGeoIPReaderAsync
        rw [show ({ st1 with queries := st1.queries + 1 } :
          GeoState).geoIPReader = some r from hsets]
      have hmiss2 : mapHas ({ st1 with queries := st1.queries + 1 } :
          GeoState).ipCountryCache ip = false := by
        rw [show ({ st1 with queries := st1.queries + 1 } :
          GeoState).ipCountryCache = st.ipCountryCache from hc1]
        exact hmiss
      unfold getCountryCodeFromIPAsync
      rw [if_neg hip, if_neg (by rw [hmiss2]; simp)]
      simp only [hinit2, hget]
  · intro env st st1 e hmiss hinit
    have hframe := initGeoIPReader_frame env st
    rw [hinit] at hframe
    have hc1 : st1.ipCountryCache = st.ipCountryCache := hframe.1
    refine ⟨?_, hc1⟩
    unfold getCountryCodeFromIP
    rw [if_neg hip, if_neg (by rw [hmiss]; simp)]
    simp only [hinit]
  · intro env st st1 r e hmiss hinit hget
    have hframe := initGeoIPReader_frame env st
    rw [hinit] at hframe
    have hc1 : st1.ipCountryCache = st.ipCountryCache := hframe.1
    have hsets : st1.geoIPReader = some r :=
      initGeoIPReader_ok_sets env st st1 r hinit
    refine ⟨?_, hc1, ?_⟩
    · unfold getCountryCodeFromIP
      rw [if_neg hip, if_neg (by rw [hmiss]; simp)]
      simp only [hinit, hget]
    · have hinit2 : initGeoIPReader env
          { st1 with queries := st1.queries + 1 } =
          (.ok r, { st1 with queries := st1.queries + 1 }) := by
        unfold initGeoIPReader
        rw [show ({ st1 with queries := st1.queries + 1 } :
          GeoState).geoIPReader = some r from hsets]
      have hmiss2 : mapHas ({ st1 with queries := st1.queries + 1 } :
          GeoState).ipCountryCache ip = false := by
        rw [show ({ st1 with queries := st1.queries + 1 } :
          GeoState).ipCountryCache = st.ipCountryCache from hc1]
        exact hmiss
      unfold getCountryCodeFromIP
      rw [if_neg hip, if_neg (by rw [hmiss2]; simp)]
      simp only [hinit2, hget]

/-- Witness for C10: a missing database and a throwing provider both
yield `null` with nothing cached — on the asynchronous and on the
blocking path — and the provider error for `9.9.9.9` is retried (second
query) on the next lookup of either form. -/
theorem C10_error_not_cached_witness :
    (getCountryCodeFromIPAsync wEnvEmpty initialGeoState "8.8.8.8" =
       (.ok none, initialGeoState) ∧
     initialGeoState.ipCountryCache = initialGeoState.ipCountryCache ∧
     mapHas initialGeoState.ipCountryCache "8.8.8.8" = false) ∧
    (getCountryCodeFromIPAsync wEnvCountry initialGeoState "9.9.9.9" =
       (.ok none, { wStCountryInit with
         queries := wStCountryInit.queries + 1 }) ∧
     wStCountryInit.ipCountryCache = initialGeoState.ipCountryCache ∧
     ((getCountryCodeFromIPAsync wEnvCountry
         { wStCountryInit with queries := wStCountryInit.queries + 1 }
         "9.9.9.9").2).queries = wStCountryInit.queries + 2) ∧
    (getCountryCodeFromIP wEnvEmpty initialGeoState "8.8.8.8" =
       (.ok none, initialGeoState) ∧
     initialGeoState.ipCountryCache = initialGeoState.ipCountryCache) ∧
    (getCountryCodeFromIP wEnvCountry initialGeoState "9.9.9.9" =
       (.ok none, { wStCountryInit with
         queries := wStCountryInit.queries + 1 }) ∧
     wStCountryInit.ipCountryCache = initialGeoState.ipCountryCache ∧
     ((getCountryCodeFromIP wEnvCountry
         { wStCountryInit with queries := wStCountryInit.queries + 1 }
         "9.9.9.9").2).queries = wStCountryInit.queries + 2) :=
  ⟨(C10_error_not_cached "8.8.8.8" (by decide)).1 wEnvEmpty initialGeoState
     initialGeoState _ rfl rfl,
   (C10_error_not_cached "9.9.9.9" (by decide)).2.1 wEnvCountry
     initialGeoState wStCountryInit ⟨[9]⟩ "boom" rfl rfl rfl,
   (C10_error_not_cached "8.8.8.8" (by decide)).2.2.1 wEnvEmpty
     initialGeoState initialGeoState _ rfl rfl,
   (C10_error_not_cached "9.9.9.9" (by decide)).2.2.2 wEnvCountry
     initialGeoState wStCountryInit ⟨[9]⟩ "boom" rfl rfl rfl⟩

end Nezha
